import Mathlib

/-!
Verification development for the PriceHound pricing calculator.

The definitions below are a shallow embedding of the pricing/allotment
computation of `frontend/src/routes/+page.svelte` and of the per-line
arithmetic of `frontend/src/lib/components/QuoteLine.svelte`.
JavaScript numbers are idealised as rationals (`ℚ`); all arithmetic in the
embedded code is addition, subtraction, multiplication, division by 100 and
`Math.max`, so the idealisation is exact except for floating-point rounding.
-/

/-- JavaScript `Math.max` on two numbers (NaN aside). -/
def jsMax (a b : ℚ) : ℚ := if a < b then b else a

/-- Modelled from the spec: the helper module `frontend/src/lib/utils.ts`
(functions `parsePrice`, `isPercentagePrice`, `parsePercentage`) is not
present under `src/`. Per the spec, a raw price cell either carries a flat
unit price or marks the product as "priced as a percentage surcharge on the
running subtotal rather than a flat unit price". A cell is modelled by the
data those helpers extract from it: whether it is a percentage cell, and the
numeric amount parsed out of the string. -/
structure PriceCell where
  isPercent : Bool
  amount : ℚ
deriving DecidableEq

/-- Modelled from the spec: `parsePrice` of `utils.ts` parses the numeric
unit price out of a raw cell; a missing (`null`) cell parses to 0. -/
def parsePrice : Option PriceCell → ℚ
  | none => 0
  | some c => c.amount

/-- Modelled from the spec: `isPercentagePrice` of `utils.ts` recognises the
cells of products "priced as a percentage surcharge"; a missing cell is not
percentage-priced. -/
def isPercentagePrice : Option PriceCell → Bool
  | none => false
  | some c => c.isPercent

/-- Modelled from the spec: `parsePercentage` of `utils.ts` parses the
numeric percentage out of a raw cell; a missing cell parses to 0. -/
def parsePercentage : Option PriceCell → ℚ
  | none => 0
  | some c => c.amount

/-- `Product` of `frontend/src/lib/api.ts` (the three price columns are raw
cells; `null` is `none`). -/
structure Product where
  id : String
  product : String
  plan : String
  billing_unit : String
  billed_annually : Option PriceCell
  billed_month_to_month : Option PriceCell
  on_demand : Option PriceCell
deriving DecidableEq

/-- `Allotment` of `frontend/src/lib/api.ts`. -/
structure Allotment where
  parent_product : String
  allotted_product : String
  quantity_per_parent : ℚ
  allotted_unit : String
  per_parent_unit : String
  frequency : String
  parent_product_id : Option String
  allotted_product_id : Option String
deriving DecidableEq

/-- `LineItem` of `frontend/src/routes/+page.svelte`. The optional boolean
`isAllotment?` is modelled as a `Bool` (an absent field is falsy in every
use); `includedQuantity?: number` keeps its optionality because the source
reads it as `line.includedQuantity || 0`. -/
structure LineItem where
  id : String
  product : Option Product
  quantity : ℚ
  isAllotment : Bool
  parentLineId : Option String
  allotmentInfo : Option Allotment
  includedQuantity : Option ℚ
deriving DecidableEq

/-- The record produced by the `totals` reactive block (fields `annually`,
`monthly`, `on_demand`). -/
structure Totals where
  annually : ℚ
  monthly : ℚ
  on_demand : ℚ
deriving DecidableEq

/-- `validLines` of `+page.svelte`: `lines.filter((l) => l.product !== null)`. -/
def validLines (lines : List LineItem) : List LineItem :=
  lines.filter (fun l => l.product.isSome)

/-- `chargeableQty` computed inside the first pass of the `totals` block:
for allotments only the quantity exceeding the included amount is charged,
`Math.max(0, line.quantity - (line.includedQuantity || 0))`. -/
def chargeableQty (line : LineItem) : ℚ :=
  if line.isAllotment then jsMax 0 (line.quantity - line.includedQuantity.getD 0)
  else line.quantity

/-- One step of the first `reduce` of the `totals` block (base totals over
non-percentage items; lines without a product and percentage-priced products
leave the accumulator unchanged). -/
def baseStep (acc : Totals) (line : LineItem) : Totals :=
  match line.product with
  | none => acc
  | some p =>
    if isPercentagePrice p.billed_annually then acc
    else
      { annually := acc.annually + parsePrice p.billed_annually * chargeableQty line,
        monthly := acc.monthly + parsePrice p.billed_month_to_month * chargeableQty line,
        on_demand := acc.on_demand + parsePrice p.on_demand * chargeableQty line }

/-- One step of the second `reduce` of the `totals` block (percentage-based
add-ons, computed against the base totals of the first pass). -/
def pctStep (baseTotals : Totals) (acc : Totals) (line : LineItem) : Totals :=
  match line.product with
  | none => acc
  | some p =>
    if isPercentagePrice p.billed_annually then
      { annually := acc.annually + baseTotals.annually * parsePercentage p.billed_annually / 100,
        monthly := acc.monthly + baseTotals.monthly * parsePercentage p.billed_month_to_month / 100,
        on_demand := acc.on_demand + baseTotals.on_demand * parsePercentage p.on_demand / 100 }
    else acc

/-- The `totals` reactive block of `+page.svelte`: base pass over
`validLines`, percentage pass over `validLines`, then the componentwise sum
of the two accumulators. -/
def totals (lines : List LineItem) : Totals :=
  let baseTotals := (validLines lines).foldl baseStep ⟨0, 0, 0⟩
  let percentageAddOns := (validLines lines).foldl (pctStep baseTotals) ⟨0, 0, 0⟩
  { annually := baseTotals.annually + percentageAddOns.annually,
    monthly := baseTotals.monthly + percentageAddOns.monthly,
    on_demand := baseTotals.on_demand + percentageAddOns.on_demand }

/-- The `annualCosts` reactive block of `+page.svelte`: each mode's total
multiplied by 12. -/
def annualCosts (lines : List LineItem) : Totals :=
  { annually := (totals lines).annually * 12,
    monthly := (totals lines).monthly * 12,
    on_demand := (totals lines).on_demand * 12 }

namespace QuoteLine

/-- `chargeableQuantity` of `QuoteLine.svelte`:
`isAllotment ? Math.max(0, quantity - includedQuantity) : quantity` (the
`includedQuantity` prop defaults to 0). -/
def chargeableQuantity (isAllotment : Bool) (quantity includedQuantity : ℚ) : ℚ :=
  if isAllotment then jsMax 0 (quantity - includedQuantity) else quantity

/-- `isPercentageBased` of `QuoteLine.svelte`: percentage classification of
the selected product by its annual price cell (false when no product is
selected). -/
def isPercentageBased (selectedProduct : Option Product) : Bool :=
  match selectedProduct with
  | some p => isPercentagePrice p.billed_annually
  | none => false

/-- `annualTotal` of `QuoteLine.svelte`: the displayed percentage for
percentage-based products, otherwise the annual unit price times the
chargeable quantity. -/
def annualTotal (selectedProduct : Option Product) (isAllotment : Bool)
    (quantity includedQuantity : ℚ) : ℚ :=
  if isPercentageBased selectedProduct then
    parsePercentage (selectedProduct.bind Product.billed_annually)
  else
    parsePrice (selectedProduct.bind Product.billed_annually) *
      chargeableQuantity isAllotment quantity includedQuantity

end QuoteLine

/-- The deduplication loop of `updateLine` (and `processImportFile`): keep
the first allotment rule seen for each `allotted_product` name, in order. -/
def dedupAllotments : List String → List Allotment → List Allotment
  | _, [] => []
  | seen, a :: rest =>
    if a.allotted_product ∈ seen then dedupAllotments seen rest
    else a :: dedupAllotments (a.allotted_product :: seen) rest

/-- Character-list test used to implement the JavaScript substring check:
does the second list start with the first? -/
def charsStartWith : List Char → List Char → Bool
  | [], _ => true
  | _ :: _, [] => false
  | p :: ps, c :: cs => p == c && charsStartWith ps cs

/-- Does the second character list contain the first as a contiguous run? -/
def charsContain (pat : List Char) : List Char → Bool
  | [] => charsStartWith pat []
  | c :: cs => charsStartWith pat (c :: cs) || charsContain pat cs

/-- JavaScript `String.prototype.includes` (substring test; the empty
pattern is contained in every string). -/
def strIncludes (s pat : String) : Bool :=
  charsContain pat.data s.data

/-- ASCII lowering of one character (JavaScript `toLowerCase` restricted to
the ASCII product names the calculator handles). -/
def charToLower (c : Char) : Char :=
  if 'A' ≤ c && c ≤ 'Z' then Char.ofNat (c.toNat + 32) else c

/-- JavaScript `String.prototype.toLowerCase` over ASCII strings. -/
def strToLower (s : String) : String :=
  String.mk (s.data.map charToLower)

/-- The allotted-product lookup of `updateLine`: match by
`allotted_product_id` first, then fall back to a case-insensitive substring
match on the product name. -/
def findAllottedProduct (products : List Product) (a : Allotment) : Option Product :=
  match products.find? (fun p => decide (some p.id = a.allotted_product_id)) with
  | some p => some p
  | none => products.find? (fun p =>
      strIncludes (strToLower p.product) (strToLower a.allotted_product))

/-- The allotment-child creation loop of `updateLine`: one child line per
rule whose allotted product resolves, with `includedQuantity` set to
`quantity_per_parent * quantity`. `crypto.randomUUID()` is modelled by an
oracle `freshIds`, consumed once per created child. -/
def mkChildren (products : List Product) (freshIds : ℕ → String) (parentId : String)
    (quantity : ℚ) : ℕ → List Allotment → List LineItem
  | _, [] => []
  | k, a :: rest =>
    match findAllottedProduct products a with
    | some ap =>
      { id := freshIds k, product := some ap, quantity := a.quantity_per_parent * quantity,
        isAllotment := true, parentLineId := some parentId, allotmentInfo := some a,
        includedQuantity := some (a.quantity_per_parent * quantity) }
        :: mkChildren products freshIds parentId quantity (k + 1) rest
    | none => mkChildren products freshIds parentId quantity k rest

/-- The allotment rules applying to a newly selected product: those whose
`parent_product_id` matches it, deduplicated by `allotted_product`. -/
def parentRules (allotments : List Allotment) (pid : String) : List Allotment :=
  dedupAllotments [] (allotments.filter (fun a => decide (a.parent_product_id = some pid)))

/-- The product-changed branch of `updateLine`: drop the line and its old
allotment children, re-add the updated line, then append the freshly built
allotment children. When the id is not found the source spreads
`existingLine!` (an `undefined` record), producing a line with no id; that
unreachable case is modelled by an empty id. -/
def updateLineProductChanged (products : List Product) (allotments : List Allotment)
    (freshIds : ℕ → String) (lines : List LineItem) (id : String)
    (existingLine : Option LineItem) (p : Product) (quantity : ℚ) : List LineItem :=
  let kept := lines.filter (fun l => decide (l.id ≠ id ∧ l.parentLineId ≠ some id))
  let updatedLine :=
    match existingLine with
    | some el => { el with product := some p, quantity := quantity }
    | none =>
      { id := "", product := some p, quantity := quantity, isAllotment := false,
        parentLineId := none, allotmentInfo := none, includedQuantity := none }
  kept ++ updatedLine :: mkChildren products freshIds id quantity 0 (parentRules allotments p.id)

/-- The quantity-changed branch of `updateLine`: update the line in place and
recompute `includedQuantity` for each of its allotment children. -/
def updateLineQuantityChanged (lines : List LineItem) (id : String)
    (product : Option Product) (quantity : ℚ) : List LineItem :=
  lines.map (fun l =>
    if l.id = id then { l with product := product, quantity := quantity }
    else if l.parentLineId = some id then
      match l.allotmentInfo with
      | some ai => { l with includedQuantity := some (ai.quantity_per_parent * quantity) }
      | none => l
    else l)

/-- `updateLine` of `+page.svelte`. -/
def updateLine (products : List Product) (allotments : List Allotment)
    (freshIds : ℕ → String) (lines : List LineItem) (id : String)
    (product : Option Product) (quantity : ℚ) : List LineItem :=
  let existingLine := lines.find? (fun l => decide (l.id = id))
  let previousProductId := existingLine.bind (fun l => l.product.map Product.id)
  let productChanged : Bool := decide (product.map Product.id ≠ previousProductId)
  let fallthrough : List LineItem :=
    if ¬ productChanged = true ∧ some quantity ≠ existingLine.map LineItem.quantity then
      updateLineQuantityChanged lines id product quantity
    else
      lines.map (fun l => if l.id = id then { l with product := product, quantity := quantity } else l)
  match product with
  | some p =>
    if productChanged then
      updateLineProductChanged products allotments freshIds lines id existingLine p quantity
    else fallthrough
  | none => fallthrough

/-- The allotment children of a line: the sublines whose `parentLineId`
points at it. -/
def lineChildren (lines : List LineItem) (id : String) : List LineItem :=
  lines.filter (fun l => decide (l.parentLineId = some id))

/-- Percentage classification of a line, as the `totals` block performs it:
by the `billed_annually` cell of the line's product. -/
def lineIsPct (l : LineItem) : Bool :=
  match l.product with
  | some p => isPercentagePrice p.billed_annually
  | none => false

/-- The parsed annual unit price of a line's product (0 without a product). -/
def linePriceA (l : LineItem) : ℚ :=
  match l.product with
  | some p => parsePrice p.billed_annually
  | none => 0

/-- The parsed month-to-month unit price of a line's product. -/
def linePriceM (l : LineItem) : ℚ :=
  match l.product with
  | some p => parsePrice p.billed_month_to_month
  | none => 0

/-- The parsed on-demand unit price of a line's product. -/
def linePriceO (l : LineItem) : ℚ :=
  match l.product with
  | some p => parsePrice p.on_demand
  | none => 0

/-- Per-line flat contribution to the annual base total: the parsed annual
unit price times the chargeable quantity, and 0 for percentage-priced lines
and productless lines. -/
def flatA (l : LineItem) : ℚ :=
  if lineIsPct l then 0 else linePriceA l * chargeableQty l

/-- Per-line flat contribution to the month-to-month base total. -/
def flatM (l : LineItem) : ℚ :=
  if lineIsPct l then 0 else linePriceM l * chargeableQty l

/-- Per-line flat contribution to the on-demand base total. -/
def flatO (l : LineItem) : ℚ :=
  if lineIsPct l then 0 else linePriceO l * chargeableQty l

/-- The annual percentage rate of a line: the parsed percentage of the
product's annual cell for percentage-priced lines, 0 otherwise. -/
def pctRateA (l : LineItem) : ℚ :=
  match l.product with
  | some p => if isPercentagePrice p.billed_annually then parsePercentage p.billed_annually else 0
  | none => 0

/-- The month-to-month percentage rate of a line. -/
def pctRateM (l : LineItem) : ℚ :=
  match l.product with
  | some p => if isPercentagePrice p.billed_annually then parsePercentage p.billed_month_to_month else 0
  | none => 0

/-- The on-demand percentage rate of a line. -/
def pctRateO (l : LineItem) : ℚ :=
  match l.product with
  | some p => if isPercentagePrice p.billed_annually then parsePercentage p.on_demand else 0
  | none => 0

/-- The base (flat) subtotals of a quote, written as three parallel sums
over the valid lines. -/
def baseSums (lines : List LineItem) : Totals :=
  { annually := ((validLines lines).map flatA).sum,
    monthly := ((validLines lines).map flatM).sum,
    on_demand := ((validLines lines).map flatO).sum }

/-- The percentage add-ons of a quote, written as three parallel sums over
the valid lines: each line surcharges its rate applied to the base subtotal
of the corresponding billing mode. -/
def addOnSums (lines : List LineItem) : Totals :=
  { annually := ((validLines lines).map (fun l => (baseSums lines).annually * pctRateA l / 100)).sum,
    monthly := ((validLines lines).map (fun l => (baseSums lines).monthly * pctRateM l / 100)).sum,
    on_demand := ((validLines lines).map (fun l => (baseSums lines).on_demand * pctRateO l / 100)).sum }

theorem baseStep_eq (acc : Totals) (l : LineItem) :
    baseStep acc l =
      { annually := acc.annually + flatA l,
        monthly := acc.monthly + flatM l,
        on_demand := acc.on_demand + flatO l } := by
  unfold baseStep flatA flatM flatO lineIsPct linePriceA linePriceM linePriceO
  cases h : l.product with
  | none => simp
  | some p =>
    by_cases hp : isPercentagePrice p.billed_annually = true <;> simp [hp]

theorem pctStep_eq (b acc : Totals) (l : LineItem) :
    pctStep b acc l =
      { annually := acc.annually + b.annually * pctRateA l / 100,
        monthly := acc.monthly + b.monthly * pctRateM l / 100,
        on_demand := acc.on_demand + b.on_demand * pctRateO l / 100 } := by
  unfold pctStep pctRateA pctRateM pctRateO
  cases h : l.product with
  | none => simp
  | some p =>
    by_cases hp : isPercentagePrice p.billed_annually = true <;> simp [hp]

theorem foldl_baseStep (lines : List LineItem) (acc : Totals) :
    lines.foldl baseStep acc =
      { annually := acc.annually + (lines.map flatA).sum,
        monthly := acc.monthly + (lines.map flatM).sum,
        on_demand := acc.on_demand + (lines.map flatO).sum } := by
  induction lines generalizing acc with
  | nil => simp
  | cons l ls ih =>
    simp only [List.foldl_cons, List.map_cons, List.sum_cons, ih, baseStep_eq]
    simp only [Totals.mk.injEq]
    refine ⟨?_, ?_, ?_⟩ <;> ring

theorem foldl_pctStep (b : Totals) (lines : List LineItem) (acc : Totals) :
    lines.foldl (pctStep b) acc =
      { annually := acc.annually + b.annually * (lines.map pctRateA).sum / 100,
        monthly := acc.monthly + b.monthly * (lines.map pctRateM).sum / 100,
        on_demand := acc.on_demand + b.on_demand * (lines.map pctRateO).sum / 100 } := by
  induction lines generalizing acc with
  | nil => simp
  | cons l ls ih =>
    simp only [List.foldl_cons, List.map_cons, List.sum_cons, ih, pctStep_eq]
    simp only [Totals.mk.injEq]
    refine ⟨?_, ?_, ?_⟩ <;> ring

theorem sum_map_validLines (f : LineItem → ℚ) (hf : ∀ l, l.product = none → f l = 0)
    (lines : List LineItem) :
    ((validLines lines).map f).sum = (lines.map f).sum := by
  induction lines with
  | nil => rfl
  | cons l ls ih =>
    unfold validLines at *
    cases h : l.product with
    | none => simp [List.filter_cons, h, hf l h, ih]
    | some p => simp [List.filter_cons, h, ih]

theorem totals_eq_sums (lines : List LineItem) :
    totals lines =
      { annually := (baseSums lines).annually + (baseSums lines).annually * ((validLines lines).map pctRateA).sum / 100,
        monthly := (baseSums lines).monthly + (baseSums lines).monthly * ((validLines lines).map pctRateM).sum / 100,
        on_demand := (baseSums lines).on_demand + (baseSums lines).on_demand * ((validLines lines).map pctRateO).sum / 100 } := by
  unfold totals baseSums
  simp only [foldl_baseStep, foldl_pctStep]
  simp

theorem flatA_of_none (l : LineItem) (h : l.product = none) : flatA l = 0 := by
  simp [flatA, lineIsPct, linePriceA, h]

theorem flatM_of_none (l : LineItem) (h : l.product = none) : flatM l = 0 := by
  simp [flatM, lineIsPct, linePriceM, h]

theorem flatO_of_none (l : LineItem) (h : l.product = none) : flatO l = 0 := by
  simp [flatO, lineIsPct, linePriceO, h]

theorem pctRateA_of_none (l : LineItem) (h : l.product = none) : pctRateA l = 0 := by
  simp [pctRateA, h]

theorem pctRateM_of_none (l : LineItem) (h : l.product = none) : pctRateM l = 0 := by
  simp [pctRateM, h]

theorem pctRateO_of_none (l : LineItem) (h : l.product = none) : pctRateO l = 0 := by
  simp [pctRateO, h]

/-- Master closed form of the `totals` block: three sums over the raw line
list (lines without a product contribute nothing, so the `validLines`
filter can be dropped). -/
theorem totals_formula (lines : List LineItem) :
    totals lines =
      { annually := (lines.map flatA).sum + (lines.map flatA).sum * (lines.map pctRateA).sum / 100,
        monthly := (lines.map flatM).sum + (lines.map flatM).sum * (lines.map pctRateM).sum / 100,
        on_demand := (lines.map flatO).sum + (lines.map flatO).sum * (lines.map pctRateO).sum / 100 } := by
  rw [totals_eq_sums]
  unfold baseSums
  rw [sum_map_validLines flatA flatA_of_none, sum_map_validLines flatM flatM_of_none,
    sum_map_validLines flatO flatO_of_none, sum_map_validLines pctRateA pctRateA_of_none,
    sum_map_validLines pctRateM pctRateM_of_none, sum_map_validLines pctRateO pctRateO_of_none]

/-- Accumulator of the single-pass computation: the base subtotals together
with the accumulated percentage rates of each billing mode. -/
structure PassState where
  base : Totals
  rates : Totals
deriving DecidableEq

/-- One step of the single-pass computation: a percentage-priced line adds
its rates, any other line with a product adds its flat contribution. -/
def singleStep (acc : PassState) (line : LineItem) : PassState :=
  match line.product with
  | none => acc
  | some p =>
    if isPercentagePrice p.billed_annually then
      { acc with rates :=
        { annually := acc.rates.annually + parsePercentage p.billed_annually,
          monthly := acc.rates.monthly + parsePercentage p.billed_month_to_month,
          on_demand := acc.rates.on_demand + parsePercentage p.on_demand } }
    else
      { acc with base :=
        { annually := acc.base.annually + parsePrice p.billed_annually * chargeableQty line,
          monthly := acc.base.monthly + parsePrice p.billed_month_to_month * chargeableQty line,
          on_demand := acc.base.on_demand + parsePrice p.on_demand * chargeableQty line } }

/-- Single fold over the raw line-item array, followed by applying the
accumulated percentage rates to the accumulated base subtotals. -/
def totalsSinglePass (lines : List LineItem) : Totals :=
  let s := lines.foldl singleStep ⟨⟨0, 0, 0⟩, ⟨0, 0, 0⟩⟩
  { annually := s.base.annually + s.base.annually * s.rates.annually / 100,
    monthly := s.base.monthly + s.base.monthly * s.rates.monthly / 100,
    on_demand := s.base.on_demand + s.base.on_demand * s.rates.on_demand / 100 }

theorem singleStep_eq (acc : PassState) (l : LineItem) :
    singleStep acc l =
      { base :=
        { annually := acc.base.annually + flatA l,
          monthly := acc.base.monthly + flatM l,
          on_demand := acc.base.on_demand + flatO l },
        rates :=
        { annually := acc.rates.annually + pctRateA l,
          monthly := acc.rates.monthly + pctRateM l,
          on_demand := acc.rates.on_demand + pctRateO l } } := by
  unfold singleStep flatA flatM flatO lineIsPct linePriceA linePriceM linePriceO
    pctRateA pctRateM pctRateO
  cases h : l.product with
  | none => simp
  | some p =>
    by_cases hp : isPercentagePrice p.billed_annually = true <;> simp [hp]

theorem foldl_singleStep (lines : List LineItem) (acc : PassState) :
    lines.foldl singleStep acc =
      { base :=
        { annually := acc.base.annually + (lines.map flatA).sum,
          monthly := acc.base.monthly + (lines.map flatM).sum,
          on_demand := acc.base.on_demand + (lines.map flatO).sum },
        rates :=
        { annually := acc.rates.annually + (lines.map pctRateA).sum,
          monthly := acc.rates.monthly + (lines.map pctRateM).sum,
          on_demand := acc.rates.on_demand + (lines.map pctRateO).sum } } := by
  induction lines generalizing acc with
  | nil => simp
  | cons l ls ih =>
    simp only [List.foldl_cons, List.map_cons, List.sum_cons, ih, singleStep_eq]
    simp only [PassState.mk.injEq, Totals.mk.injEq]
    refine ⟨⟨?_, ?_, ?_⟩, ?_, ?_, ?_⟩ <;> ring

/-- Driver that threads the line-item array through an iteration: each step
receives the accumulator and the current array cell and returns the new
accumulator together with the cell the iteration leaves in the array.
The `reduce` callbacks of the `totals` block read the cell and return only
an accumulator, so their threaded steps return the cell unchanged. -/
def runFold (f : Totals → LineItem → Totals × LineItem) :
    Totals → List LineItem → Totals × List LineItem
  | acc, [] => (acc, [])
  | acc, l :: ls =>
    let s := f acc l
    let r := runFold f s.1 ls
    (r.1, s.2 :: r.2)

/-- Threaded step of the base pass: the callback computes the new accumulator
from the cell's fields and performs no assignment to the cell. -/
def baseStepRun (acc : Totals) (line : LineItem) : Totals × LineItem :=
  (baseStep acc line, line)

/-- Threaded step of the percentage pass. -/
def pctStepRun (b : Totals) (acc : Totals) (line : LineItem) : Totals × LineItem :=
  (pctStep b acc line, line)

/-- The whole `totals` computation with the line-item array threaded through
both passes; returns the computed totals together with the array as the
computation leaves it. Both passes are folded over the raw array (the steps
themselves skip productless lines, which is equivalent to the source's
`validLines` filter). -/
def totalsRun (lines : List LineItem) : Totals × List LineItem :=
  let b := runFold baseStepRun ⟨0, 0, 0⟩ lines
  let a := runFold (pctStepRun b.1) ⟨0, 0, 0⟩ b.2
  ({ annually := b.1.annually + a.1.annually,
     monthly := b.1.monthly + a.1.monthly,
     on_demand := b.1.on_demand + a.1.on_demand }, a.2)

theorem runFold_of_readonly (step : Totals → LineItem → Totals)
    (acc : Totals) (lines : List LineItem) :
    runFold (fun a l => (step a l, l)) acc lines = (lines.foldl step acc, lines) := by
  induction lines generalizing acc with
  | nil => rfl
  | cons l ls ih => simp [runFold, ih]

theorem totalsRun_fst (lines : List LineItem) : (totalsRun lines).1 = totals lines := by
  unfold totalsRun baseStepRun pctStepRun
  simp only [runFold_of_readonly]
  rw [totals_eq_sums]
  unfold baseSums
  rw [foldl_baseStep, foldl_pctStep]
  rw [sum_map_validLines flatA flatA_of_none, sum_map_validLines flatM flatM_of_none,
    sum_map_validLines flatO flatO_of_none, sum_map_validLines pctRateA pctRateA_of_none,
    sum_map_validLines pctRateM pctRateM_of_none, sum_map_validLines pctRateO pctRateO_of_none]
  simp

theorem totalsRun_snd (lines : List LineItem) : (totalsRun lines).2 = lines := by
  unfold totalsRun baseStepRun pctStepRun
  simp only [runFold_of_readonly]

theorem mkChildren_parentLineId (products : List Product) (freshIds : ℕ → String)
    (pid : String) (q : ℚ) :
    ∀ (rules : List Allotment) (k : ℕ),
      ∀ c ∈ mkChildren products freshIds pid q k rules, c.parentLineId = some pid := by
  intro rules
  induction rules with
  | nil => intro k c hc; simp [mkChildren] at hc
  | cons a rest ih =>
    intro k c hc
    unfold mkChildren at hc
    cases h : findAllottedProduct products a with
    | some ap =>
      rw [h] at hc
      rcases List.mem_cons.mp hc with h1 | h2
      · subst h1; rfl
      · exact ih _ c h2
    | none =>
      rw [h] at hc
      exact ih _ c hc

theorem mkChildren_filterMap (products : List Product) (freshIds : ℕ → String)
    (pid : String) (q : ℚ) :
    ∀ (rules : List Allotment) (k : ℕ),
      (mkChildren products freshIds pid q k rules).map
          (fun c => (c.product, c.allotmentInfo, c.includedQuantity))
        = rules.filterMap (fun a => (findAllottedProduct products a).map
            (fun ap => (some ap, some a, some (a.quantity_per_parent * q)))) := by
  intro rules
  induction rules with
  | nil => intro k; rfl
  | cons a rest ih =>
    intro k
    unfold mkChildren
    cases hap : findAllottedProduct products a with
    | some ap =>
      simp only [List.map_cons, List.filterMap_cons, hap, Option.map_some]
      exact congrArg _ (ih (k + 1))
    | none =>
      simp only [List.filterMap_cons, hap, Option.map_none]
      exact ih k

theorem dedupAllotments_names_spec (as : List Allotment) :
    ∀ seen : List String,
      ((dedupAllotments seen as).map Allotment.allotted_product).Nodup
      ∧ ∀ n ∈ (dedupAllotments seen as).map Allotment.allotted_product, ¬ n ∈ seen := by
  induction as with
  | nil => intro seen; simp [dedupAllotments]
  | cons a rest ih =>
    intro seen
    unfold dedupAllotments
    by_cases h : a.allotted_product ∈ seen
    · simp only [if_pos h]
      exact ih seen
    · simp only [if_neg h, List.map_cons]
      constructor
      · refine List.nodup_cons.mpr ⟨?_, (ih (a.allotted_product :: seen)).1⟩
        intro hmem
        exact (ih (a.allotted_product :: seen)).2 _ hmem (by simp)
      · intro n hn
        rcases List.mem_cons.mp hn with rfl | htail
        · exact h
        · intro hseen
          exact (ih (a.allotted_product :: seen)).2 n htail (List.mem_cons_of_mem _ hseen)

theorem dedupAllotments_covers (as : List Allotment) :
    ∀ (seen : List String), ∀ a ∈ as,
      a.allotted_product ∈ seen
      ∨ a.allotted_product ∈ (dedupAllotments seen as).map Allotment.allotted_product := by
  induction as with
  | nil => intro seen a ha; simp at ha
  | cons b rest ih =>
    intro seen a ha
    unfold dedupAllotments
    by_cases h : b.allotted_product ∈ seen
    · simp only [if_pos h]
      rcases List.mem_cons.mp ha with rfl | ha'
      · exact Or.inl h
      · exact ih seen a ha'
    · simp only [if_neg h, List.map_cons]
      rcases List.mem_cons.mp ha with rfl | ha'
      · exact Or.inr (List.mem_cons_self _ _)
      · rcases ih (b.allotted_product :: seen) a ha' with hs | hd
        · rcases List.mem_cons.mp hs with heq | hs'
          · exact Or.inr (by rw [heq]; exact List.mem_cons_self _ _)
          · exact Or.inl hs'
        · exact Or.inr (List.mem_cons_of_mem _ hd)

theorem updateLine_changed_eq (products : List Product) (allotments : List Allotment)
    (freshIds : ℕ → String) (lines : List LineItem) (id : String) (p : Product) (q : ℚ)
    (el : LineItem)
    (h1 : lines.find? (fun l => decide (l.id = id)) = some el)
    (h2 : some p.id ≠ el.product.map Product.id) :
    updateLine products allotments freshIds lines id (some p) q
      = updateLineProductChanged products allotments freshIds lines id (some el) p q := by
  unfold updateLine
  rw [h1]
  simp only [Option.bind_some, Option.map_some, h2, Option.bind]
  simp [h2]

theorem updateLine_changed_children (products : List Product) (allotments : List Allotment)
    (freshIds : ℕ → String) (lines : List LineItem) (id : String) (p : Product) (q : ℚ)
    (el : LineItem)
    (h1 : lines.find? (fun l => decide (l.id = id)) = some el)
    (h2 : some p.id ≠ el.product.map Product.id)
    (h4 : el.parentLineId ≠ some id) :
    lineChildren (updateLine products allotments freshIds lines id (some p) q) id
      = mkChildren products freshIds id q 0 (parentRules allotments p.id) := by
  rw [updateLine_changed_eq products allotments freshIds lines id p q el h1 h2]
  unfold updateLineProductChanged lineChildren
  rw [List.filter_append, List.filter_cons]
  have hkept : (lines.filter (fun l => decide (l.id ≠ id ∧ l.parentLineId ≠ some id))).filter
      (fun l => decide (l.parentLineId = some id)) = [] := by
    rw [List.filter_eq_nil_iff]
    intro a ha
    have := (List.mem_filter.mp ha).2
    simp only [decide_eq_true_eq] at this ⊢
    exact fun hcontra => this.2 hcontra
  have hupd : (decide (({ el with product := some p, quantity := q } : LineItem).parentLineId = some id)) = false := by
    simp only [decide_eq_false_iff_not]
    exact h4
  have hchildren : (mkChildren products freshIds id q 0 (parentRules allotments p.id)).filter
      (fun l => decide (l.parentLineId = some id))
      = mkChildren products freshIds id q 0 (parentRules allotments p.id) := by
    rw [List.filter_eq_self]
    intro a ha
    simp only [decide_eq_true_eq]
    exact mkChildren_parentLineId products freshIds id q _ 0 a ha
  rw [hkept, hupd, hchildren]
  simp

theorem updateLine_qty_changed_eq (products : List Product) (allotments : List Allotment)
    (freshIds : ℕ → String) (lines : List LineItem) (id : String)
    (product : Option Product) (q : ℚ) (el : LineItem)
    (h1 : lines.find? (fun l => decide (l.id = id)) = some el)
    (h2 : product.map Product.id = el.product.map Product.id)
    (h3 : q ≠ el.quantity) :
    updateLine products allotments freshIds lines id product q
      = updateLineQuantityChanged lines id product q := by
  unfold updateLine
  rw [h1]
  simp only [Option.bind_some]
  cases product with
  | none =>
    have hfalse : (decide (Option.map Product.id (none : Option Product)
        ≠ Option.map Product.id el.product)) = false := by
      simp [h2]
    simp only [hfalse]
    simp [h3]
    intro hP
    exact absurd (by simpa using h2) hP
  | some p =>
    have h2' : some p.id = Option.map Product.id el.product := by simpa using h2
    have hfalse : (decide (Option.map Product.id (some p)
        ≠ Option.map Product.id el.product)) = false := by
      simp [h2]
    simp only [hfalse]
    simp [h3]
    rw [if_pos h2', if_pos h2']

theorem updateLine_qty_children (lines : List LineItem) (id : String)
    (product : Option Product) (q : ℚ) :
    ∀ c ∈ updateLineQuantityChanged lines id product q,
      c.id ≠ id → c.parentLineId = some id →
      ∀ ai, c.allotmentInfo = some ai →
        c.includedQuantity = some (ai.quantity_per_parent * q) := by
  intro c hc hid hparent ai hai
  unfold updateLineQuantityChanged at hc
  obtain ⟨l, hl, hgl⟩ := List.mem_map.mp hc
  by_cases h1 : l.id = id
  · rw [if_pos h1] at hgl
    exfalso
    exact hid (by rw [← hgl]; exact h1)
  · rw [if_neg h1] at hgl
    by_cases h2 : l.parentLineId = some id
    · rw [if_pos h2] at hgl
      cases h3 : l.allotmentInfo with
      | some ai0 =>
        rw [h3] at hgl
        have : ai0 = ai := by
          have : c.allotmentInfo = some ai0 := by rw [← hgl]
          rw [this] at hai
          exact Option.some.inj hai
        rw [← hgl, ← this]
      | none =>
        rw [h3] at hgl
        rw [← hgl] at hai
        rw [h3] at hai
        exact absurd hai (by simp)
    · rw [if_neg h2] at hgl
      exact absurd (by rw [← hgl] at hparent; exact hparent) h2

theorem sum_map_mul_div (c : ℚ) (f : LineItem → ℚ) (ls : List LineItem) :
    (ls.map (fun l => c * f l / 100)).sum = c * (ls.map f).sum / 100 := by
  induction ls with
  | nil => simp
  | cons a as ih =>
    simp only [List.map_cons, List.sum_cons, ih]
    ring

theorem pctRateA_eq_zero (l : LineItem) (h : lineIsPct l = false) : pctRateA l = 0 := by
  unfold pctRateA
  unfold lineIsPct at h
  cases hp : l.product with
  | none => simp
  | some p => rw [hp] at h; simp at h; simp [h]

theorem pctRateM_eq_zero (l : LineItem) (h : lineIsPct l = false) : pctRateM l = 0 := by
  unfold pctRateM
  unfold lineIsPct at h
  cases hp : l.product with
  | none => simp
  | some p => rw [hp] at h; simp at h; simp [h]

theorem pctRateO_eq_zero (l : LineItem) (h : lineIsPct l = false) : pctRateO l = 0 := by
  unfold pctRateO
  unfold lineIsPct at h
  cases hp : l.product with
  | none => simp
  | some p => rw [hp] at h; simp at h; simp [h]

theorem flatA_of_pct (l : LineItem) (h : lineIsPct l = true) : flatA l = 0 := by
  simp [flatA, h]

theorem flatM_of_pct (l : LineItem) (h : lineIsPct l = true) : flatM l = 0 := by
  simp [flatM, h]

theorem flatO_of_pct (l : LineItem) (h : lineIsPct l = true) : flatO l = 0 := by
  simp [flatO, h]

theorem lineIsPct_quantity (l : LineItem) (q : ℚ) :
    lineIsPct { l with quantity := q } = lineIsPct l := rfl

theorem pctRateA_quantity (l : LineItem) (q : ℚ) :
    pctRateA { l with quantity := q } = pctRateA l := rfl

theorem pctRateM_quantity (l : LineItem) (q : ℚ) :
    pctRateM { l with quantity := q } = pctRateM l := rfl

theorem pctRateO_quantity (l : LineItem) (q : ℚ) :
    pctRateO { l with quantity := q } = pctRateO l := rfl

theorem sum_pct_guard (c : ℚ) (rate : LineItem → ℚ)
    (hz : ∀ l, lineIsPct l = false → rate l = 0) (ls : List LineItem) :
    (ls.map (fun l => if lineIsPct l then c * rate l / 100 else 0)).sum
      = c * (ls.map rate).sum / 100 := by
  rw [List.map_congr_left (g := fun l => c * rate l / 100) ?_, sum_map_mul_div]
  intro a ha
  cases h : lineIsPct a with
  | true => simp [h]
  | false => simp [h, hz a h]

/-- Sample flat-priced product used for concrete witnesses. -/
def hostProduct : Product :=
  { id := "p-host", product := "Infrastructure Host", plan := "Pro", billing_unit := "host",
    billed_annually := some ⟨false, 15⟩, billed_month_to_month := some ⟨false, 18⟩,
    on_demand := some ⟨false, 21⟩ }

/-- Sample percentage-priced product (a 10% surcharge in every mode). -/
def supportProduct : Product :=
  { id := "p-sup", product := "Premier Support", plan := "All", billing_unit := "percent",
    billed_annually := some ⟨true, 10⟩, billed_month_to_month := some ⟨true, 10⟩,
    on_demand := some ⟨true, 10⟩ }

/-- Sample ordinary quote line: two hosts. -/
def hostLine : LineItem :=
  { id := "L1", product := some hostProduct, quantity := 2, isAllotment := false,
    parentLineId := none, allotmentInfo := none, includedQuantity := none }

/-- Sample percentage-priced quote line. -/
def pctLine : LineItem :=
  { id := "L2", product := some supportProduct, quantity := 1, isAllotment := false,
    parentLineId := none, allotmentInfo := none, includedQuantity := none }

/-- Sample allotment line whose quantity (2) is below its included amount (5). -/
def overAllottedLine : LineItem :=
  { id := "L3", product := some hostProduct, quantity := 2, isAllotment := true,
    parentLineId := some "L1", allotmentInfo := none, includedQuantity := some 5 }

/-- Sample percentage-priced allotment line fully inside its included amount. -/
def freePctAllotmentLine : LineItem :=
  { id := "L4", product := some supportProduct, quantity := 0, isAllotment := true,
    parentLineId := some "L1", allotmentInfo := none, includedQuantity := some 0 }

/-- Sample flat allotment line fully inside its included amount. -/
def smallAllotmentLine : LineItem :=
  { id := "L5", product := some hostProduct, quantity := 1, isAllotment := true,
    parentLineId := some "L1", allotmentInfo := none, includedQuantity := some 3 }

/-- C1: for every list of line items, the `totals` computation returns three
sums — `annually`, `monthly` and `on_demand` — computed over the same line
set (`validLines`), in which every line whose product is not
percentage-priced contributes its parsed unit price for that billing mode
multiplied by its chargeable quantity (percentage-priced lines contribute
through the add-on part instead). -/
theorem totals_flat_line_contributions (lines : List LineItem) :
    totals lines =
      { annually := ((validLines lines).map (fun l =>
            if lineIsPct l then 0 else linePriceA l * chargeableQty l)).sum
            + (addOnSums lines).annually,
        monthly := ((validLines lines).map (fun l =>
            if lineIsPct l then 0 else linePriceM l * chargeableQty l)).sum
            + (addOnSums lines).monthly,
        on_demand := ((validLines lines).map (fun l =>
            if lineIsPct l then 0 else linePriceO l * chargeableQty l)).sum
            + (addOnSums lines).on_demand } := by
  have eA : (fun l => if lineIsPct l then 0 else linePriceA l * chargeableQty l) = flatA := rfl
  have eM : (fun l => if lineIsPct l then 0 else linePriceM l * chargeableQty l) = flatM := rfl
  have eO : (fun l => if lineIsPct l then 0 else linePriceO l * chargeableQty l) = flatO := rfl
  rw [eA, eM, eO, totals_eq_sums]
  unfold addOnSums baseSums
  rw [sum_map_mul_div, sum_map_mul_div, sum_map_mul_div]

/-- C2: in each billing mode the total is the base (flat) subtotal plus, for
every percentage-priced line, a surcharge equal to that line's percentage of
the base subtotal of the quote for that mode — not a flat unit price times
its quantity. -/
theorem totals_percentage_of_subtotal (lines : List LineItem) :
    (totals lines).annually = (baseSums lines).annually
      + ((validLines lines).map (fun l =>
          if lineIsPct l then (baseSums lines).annually * pctRateA l / 100 else 0)).sum
    ∧ (totals lines).monthly = (baseSums lines).monthly
      + ((validLines lines).map (fun l =>
          if lineIsPct l then (baseSums lines).monthly * pctRateM l / 100 else 0)).sum
    ∧ (totals lines).on_demand = (baseSums lines).on_demand
      + ((validLines lines).map (fun l =>
          if lineIsPct l then (baseSums lines).on_demand * pctRateO l / 100 else 0)).sum := by
  rw [totals_eq_sums]
  refine ⟨?_, ?_, ?_⟩
  · rw [sum_pct_guard _ _ pctRateA_eq_zero]
  · rw [sum_pct_guard _ _ pctRateM_eq_zero]
  · rw [sum_pct_guard _ _ pctRateO_eq_zero]

/-- C6: computing the three billing-mode totals does not modify the
line-item array: threading the array through both passes returns the exact
input array, with every line's product, quantity, allotment flag and
included quantity identical before and after, while producing the same
totals. -/
theorem totals_leaves_lines_unchanged (lines : List LineItem) :
    (totalsRun lines).1 = totals lines
    ∧ (totalsRun lines).2 = lines
    ∧ (totalsRun lines).2.map (fun l => (l.product, l.quantity, l.isAllotment, l.includedQuantity))
      = lines.map (fun l => (l.product, l.quantity, l.isAllotment, l.includedQuantity)) :=
  ⟨totalsRun_fst lines, totalsRun_snd lines, by rw [totalsRun_snd]⟩

/-- C7: the two-pass `totals` computation (base pass then percentage pass)
is equivalent to a single fold over the line-item array: `totalsSinglePass`
folds once, accumulating base subtotals and percentage rates together, and
produces the same three totals on every input. -/
theorem totals_single_pass_equiv (lines : List LineItem) :
    totalsSinglePass lines = totals lines := by
  unfold totalsSinglePass
  rw [foldl_singleStep, totals_formula]
  simp

/-- C8: permuting the order of the line items leaves all three billing-mode
totals unchanged. -/
theorem totals_perm_invariant (lines1 lines2 : List LineItem) (h : lines1.Perm lines2) :
    totals lines1 = totals lines2 := by
  rw [totals_formula, totals_formula,
    (h.map flatA).sum_eq, (h.map flatM).sum_eq, (h.map flatO).sum_eq,
    (h.map pctRateA).sum_eq, (h.map pctRateM).sum_eq, (h.map pctRateO).sum_eq]

/-- C8 witness: swapping the two lines of a concrete quote leaves the totals
unchanged. -/
theorem totals_perm_invariant_witness :
    totals [hostLine, pctLine] = totals [pctLine, hostLine] :=
  totals_perm_invariant [hostLine, pctLine] [pctLine, hostLine]
    (List.Perm.swap pctLine hostLine [])

/-- C9: changing only the quantity of a percentage-priced line, all other
lines held fixed, leaves all three billing-mode totals unchanged. -/
theorem totals_pct_quantity_irrelevant (pre post : List LineItem) (l : LineItem) (q : ℚ)
    (h : lineIsPct l = true) :
    totals (pre ++ { l with quantity := q } :: post) = totals (pre ++ l :: post) := by
  have h' : lineIsPct { l with quantity := q } = true := by rw [lineIsPct_quantity]; exact h
  rw [totals_formula, totals_formula]
  simp only [List.map_append, List.sum_append, List.map_cons, List.sum_cons,
    flatA_of_pct _ h, flatA_of_pct _ h', flatM_of_pct _ h, flatM_of_pct _ h',
    flatO_of_pct _ h, flatO_of_pct _ h',
    pctRateA_quantity, pctRateM_quantity, pctRateO_quantity]

/-- C9 witness: raising the percentage line's quantity from 1 to 99 does not
change the totals of a concrete quote. -/
theorem totals_pct_quantity_irrelevant_witness :
    lineIsPct pctLine = true
    ∧ totals ([hostLine] ++ { pctLine with quantity := 99 } :: [])
      = totals ([hostLine] ++ pctLine :: []) :=
  ⟨rfl, totals_pct_quantity_irrelevant [hostLine] [] pctLine 99 rfl⟩

/-- C10: for each billing mode, the yearly cost used for comparison equals
exactly twelve times that mode's monthly total. -/
theorem annualCosts_twelve_times (lines : List LineItem) :
    (annualCosts lines).annually = 12 * (totals lines).annually
    ∧ (annualCosts lines).monthly = 12 * (totals lines).monthly
    ∧ (annualCosts lines).on_demand = 12 * (totals lines).on_demand := by
  unfold annualCosts
  refine ⟨?_, ?_, ?_⟩ <;> ring

/-- C3 counterexample: for an allotment line with quantity 2 and included
amount 5, the chargeable quantity used in the billing totals is 0, not
`quantity - included = -3`, and the annual total of a quote holding only
that line is 0, not price times `-3`. -/
theorem chargeableQty_not_sub_included :
    chargeableQty overAllottedLine
      ≠ overAllottedLine.quantity - overAllottedLine.includedQuantity.getD 0
    ∧ (totals [overAllottedLine]).annually
      ≠ linePriceA overAllottedLine
        * (overAllottedLine.quantity - overAllottedLine.includedQuantity.getD 0) := by
  constructor
  · norm_num [chargeableQty, jsMax, overAllottedLine]
  · rw [totals_formula]
    norm_num [flatA, pctRateA, lineIsPct, linePriceA, chargeableQty, jsMax,
      overAllottedLine, hostProduct, parsePrice, isPercentagePrice]

/-- C3 (amended): the chargeable quantity used in the billing totals for an
allotment line equals its quantity minus its included amount clamped below
at zero, `max(0, quantity - included)`, while every non-allotment line is
charged for its full quantity; and it agrees with the per-line
`chargeableQuantity` displayed by the `QuoteLine` component. -/
theorem chargeableQty_clamped_in_totals (lines : List LineItem) :
    totals lines =
      { annually := ((validLines lines).map (fun l =>
            if lineIsPct l then 0 else linePriceA l *
              (if l.isAllotment then jsMax 0 (l.quantity - l.includedQuantity.getD 0)
               else l.quantity))).sum
            + (addOnSums lines).annually,
        monthly := ((validLines lines).map (fun l =>
            if lineIsPct l then 0 else linePriceM l *
              (if l.isAllotment then jsMax 0 (l.quantity - l.includedQuantity.getD 0)
               else l.quantity))).sum
            + (addOnSums lines).monthly,
        on_demand := ((validLines lines).map (fun l =>
            if lineIsPct l then 0 else linePriceO l *
              (if l.isAllotment then jsMax 0 (l.quantity - l.includedQuantity.getD 0)
               else l.quantity))).sum
            + (addOnSums lines).on_demand }
    ∧ ∀ l : LineItem, chargeableQty l
        = QuoteLine.chargeableQuantity l.isAllotment l.quantity (l.includedQuantity.getD 0) := by
  constructor
  · have eA : (fun l => if lineIsPct l then 0 else linePriceA l *
        (if l.isAllotment then jsMax 0 (l.quantity - l.includedQuantity.getD 0)
         else l.quantity)) = flatA := rfl
    have eM : (fun l => if lineIsPct l then 0 else linePriceM l *
        (if l.isAllotment then jsMax 0 (l.quantity - l.includedQuantity.getD 0)
         else l.quantity)) = flatM := rfl
    have eO : (fun l => if lineIsPct l then 0 else linePriceO l *
        (if l.isAllotment then jsMax 0 (l.quantity - l.includedQuantity.getD 0)
         else l.quantity)) = flatO := rfl
    rw [eA, eM, eO, totals_eq_sums]
    unfold addOnSums baseSums
    rw [sum_map_mul_div, sum_map_mul_div, sum_map_mul_div]
  · intro l
    rfl

/-- C5 counterexample: an allotment line whose product is percentage-priced
contributes a non-zero surcharge even when its quantity (0) does not exceed
its included amount (0): prepending it to a one-host quote raises the
annual total. -/
theorem pct_allotment_line_contributes :
    freePctAllotmentLine.isAllotment = true
    ∧ freePctAllotmentLine.quantity ≤ freePctAllotmentLine.includedQuantity.getD 0
    ∧ (totals (freePctAllotmentLine :: [hostLine])).annually ≠ (totals [hostLine]).annually := by
  refine ⟨rfl, by norm_num [freePctAllotmentLine], ?_⟩
  rw [totals_formula, totals_formula]
  norm_num [flatA, flatM, flatO, pctRateA, lineIsPct, linePriceA, chargeableQty, jsMax,
    freePctAllotmentLine, hostLine, hostProduct, supportProduct, parsePrice,
    parsePercentage, isPercentagePrice]

/-- C5 (amended): an allotment line whose product is not percentage-priced
and whose quantity does not exceed its included quantity contributes exactly
zero — never a negative amount — to each of the three billing-mode totals:
adding such a line to any quote leaves the totals unchanged. -/
theorem allotment_within_included_zero_contribution (l : LineItem) (lines : List LineItem)
    (h1 : l.isAllotment = true) (h2 : lineIsPct l = false)
    (h3 : l.quantity ≤ l.includedQuantity.getD 0) :
    totals (l :: lines) = totals lines := by
  have hq : chargeableQty l = 0 := by
    unfold chargeableQty jsMax
    rw [if_pos h1, if_neg (by linarith)]
  have hA : flatA l = 0 := by
    unfold flatA
    rw [if_neg (by simp [h2]), hq, mul_zero]
  have hM : flatM l = 0 := by
    unfold flatM
    rw [if_neg (by simp [h2]), hq, mul_zero]
  have hO : flatO l = 0 := by
    unfold flatO
    rw [if_neg (by simp [h2]), hq, mul_zero]
  rw [totals_formula, totals_formula]
  simp only [List.map_cons, List.sum_cons, hA, hM, hO,
    pctRateA_eq_zero l h2, pctRateM_eq_zero l h2, pctRateO_eq_zero l h2, zero_add]

/-- C5 (amended) witness: one host allotted up to 3 units but using only 1
adds nothing to a concrete quote's totals. -/
theorem allotment_within_included_zero_contribution_witness :
    smallAllotmentLine.isAllotment = true
    ∧ lineIsPct smallAllotmentLine = false
    ∧ smallAllotmentLine.quantity ≤ smallAllotmentLine.includedQuantity.getD 0
    ∧ totals (smallAllotmentLine :: [hostLine]) = totals [hostLine] :=
  ⟨rfl, rfl, by norm_num [smallAllotmentLine],
    allotment_within_included_zero_contribution smallAllotmentLine [hostLine] rfl rfl
      (by norm_num [smallAllotmentLine])⟩

/-- C4: (creation) selecting a product on a line creates, unconditionally,
exactly one allotment child line per rule of the deduplicated allotment
table of that product whose allotted product resolves in the catalog — so
in a mixed table the resolvable rules still get their children — each
carrying the resolved product and
`includedQuantity = quantity_per_parent * q`; the deduplicated table holds
one rule per distinct allotted product and covers every matching rule's
name; (update) when only the parent line's quantity later changes, every
allotment child of the line has its `includedQuantity` re-established to
`quantity_per_parent` times the new quantity. -/
theorem updateLine_creates_and_updates_allotments :
    (∀ (products : List Product) (allotments : List Allotment) (freshIds : ℕ → String)
        (lines : List LineItem) (id : String) (p : Product) (q : ℚ) (el : LineItem),
      lines.find? (fun l => decide (l.id = id)) = some el →
      some p.id ≠ el.product.map Product.id →
      el.parentLineId ≠ some id →
      ((lineChildren (updateLine products allotments freshIds lines id (some p) q) id).map
          (fun c => (c.product, c.allotmentInfo, c.includedQuantity))
        = (parentRules allotments p.id).filterMap (fun a =>
            (findAllottedProduct products a).map (fun ap =>
              (some ap, some a, some (a.quantity_per_parent * q))))
      ∧ ((parentRules allotments p.id).map Allotment.allotted_product).Nodup
      ∧ ∀ a ∈ allotments, a.parent_product_id = some p.id →
          a.allotted_product ∈ (parentRules allotments p.id).map Allotment.allotted_product))
    ∧ (∀ (products : List Product) (allotments : List Allotment) (freshIds : ℕ → String)
        (lines : List LineItem) (id : String) (product : Option Product) (q : ℚ)
        (el : LineItem),
      lines.find? (fun l => decide (l.id = id)) = some el →
      product.map Product.id = el.product.map Product.id →
      q ≠ el.quantity →
      ∀ c ∈ updateLine products allotments freshIds lines id product q,
        c.id ≠ id → c.parentLineId = some id →
        ∀ ai, c.allotmentInfo = some ai →
          c.includedQuantity = some (ai.quantity_per_parent * q)) := by
  constructor
  · intro products allotments freshIds lines id p q el h1 h2 h4
    refine ⟨?_, ?_, ?_⟩
    · rw [updateLine_changed_children products allotments freshIds lines id p q el h1 h2 h4]
      exact mkChildren_filterMap products freshIds id q _ 0
    · simp only [parentRules]
      exact (dedupAllotments_names_spec _ []).1
    · intro a ha hpid
      have hmem : a ∈ allotments.filter (fun a => decide (a.parent_product_id = some p.id)) :=
        List.mem_filter.mpr ⟨ha, by simp [hpid]⟩
      have hcov := dedupAllotments_covers _ [] a hmem
      simp only [parentRules]
      simpa using hcov
  · intro products allotments freshIds lines id product q el h1 h2 h3 c hc hid hparent ai hai
    rw [updateLine_qty_changed_eq products allotments freshIds lines id product q el h1 h2 h3]
      at hc
    exact updateLine_qty_children lines id product q c hc hid hparent ai hai

/-- Sample parent product that carries an allotment rule. -/
def apmProduct : Product :=
  { id := "p-apm", product := "APM Host", plan := "Pro", billing_unit := "host",
    billed_annually := some ⟨false, 31⟩, billed_month_to_month := some ⟨false, 36⟩,
    on_demand := some ⟨false, 40⟩ }

/-- Sample allotted product. -/
def spansProduct : Product :=
  { id := "p-spans", product := "Ingested Spans", plan := "Pro", billing_unit := "GB",
    billed_annually := some ⟨false, 1 / 10⟩, billed_month_to_month := some ⟨false, 12 / 100⟩,
    on_demand := some ⟨false, 15 / 100⟩ }

/-- Sample allotment rule: each APM host includes 150 units of spans. -/
def apmSpansRule : Allotment :=
  { parent_product := "APM Host", allotted_product := "Ingested Spans",
    quantity_per_parent := 150, allotted_unit := "GB", per_parent_unit := "host",
    frequency := "monthly", parent_product_id := some "p-apm",
    allotted_product_id := some "p-spans" }

/-- Sample empty quote line with no product selected. -/
def emptyLine : LineItem :=
  { id := "L0", product := none, quantity := 1, isAllotment := false,
    parentLineId := none, allotmentInfo := none, includedQuantity := none }

/-- Sample line already holding the APM product with quantity 3. -/
def apmLine : LineItem :=
  { id := "L0", product := some apmProduct, quantity := 3, isAllotment := false,
    parentLineId := none, allotmentInfo := none, includedQuantity := none }

/-- Sample allotment child of `apmLine`. -/
def spanChildLine : LineItem :=
  { id := "C1", product := some spansProduct, quantity := 450, isAllotment := true,
    parentLineId := some "L0", allotmentInfo := some apmSpansRule,
    includedQuantity := some 450 }

/-- Deterministic stand-in for the `crypto.randomUUID()` oracle. -/
def demoIds : ℕ → String := fun k => "uuid-" ++ toString k

/-- Sample allotment rule whose allotted product is absent from the catalog. -/
def ghostRule : Allotment :=
  { parent_product := "APM Host", allotted_product := "Phantom Product",
    quantity_per_parent := 2, allotted_unit := "u", per_parent_unit := "host",
    frequency := "monthly", parent_product_id := some "p-apm",
    allotted_product_id := some "p-ghost" }

/-- C4 witness: selecting the APM product with quantity 3 on the empty line
against a mixed allotment table (one unresolvable rule, one resolvable)
creates exactly one child, for the resolvable spans rule, with included
quantity 150 * 3 = 450; and after changing the parent quantity to 5, the
child's included quantity is re-established to 150 * 5. -/
theorem updateLine_creates_and_updates_allotments_witness :
    ((lineChildren (updateLine [apmProduct, spansProduct] [ghostRule, apmSpansRule] demoIds
          [emptyLine] "L0" (some apmProduct) 3) "L0").map
        (fun c => (c.product, c.allotmentInfo, c.includedQuantity))
      = [(some spansProduct, some apmSpansRule, some 450)])
    ∧ ({ spanChildLine with includedQuantity := some 750 } : LineItem).includedQuantity
      = some (apmSpansRule.quantity_per_parent * 5) := by
  have hs : findAllottedProduct [apmProduct, spansProduct] apmSpansRule
      = some spansProduct := rfl
  have hg : findAllottedProduct [apmProduct, spansProduct] ghostRule = none := rfl
  have hrules : parentRules [ghostRule, apmSpansRule] apmProduct.id
      = [ghostRule, apmSpansRule] := rfl
  constructor
  · have h := (updateLine_creates_and_updates_allotments.1 [apmProduct, spansProduct]
      [ghostRule, apmSpansRule] demoIds [emptyLine] "L0" apmProduct 3 emptyLine
      rfl
      (by simp [emptyLine])
      (by simp [emptyLine])).1
    rw [h, hrules]
    simp only [List.filterMap_cons, List.filterMap_nil, hs, hg,
      Option.map_some, Option.map_none]
    norm_num [apmSpansRule]
  · exact updateLine_creates_and_updates_allotments.2 [apmProduct, spansProduct]
      [apmSpansRule] demoIds [apmLine, spanChildLine] "L0" (some apmProduct) 5 apmLine
      rfl
      rfl
      (by norm_num [apmLine])
      { spanChildLine with includedQuantity := some 750 }
      (by
        rw [updateLine_qty_changed_eq [apmProduct, spansProduct] [apmSpansRule] demoIds
          [apmLine, spanChildLine] "L0" (some apmProduct) 5 apmLine rfl rfl
          (by norm_num [apmLine])]
        simp only [updateLineQuantityChanged, List.map_cons, List.map_nil]
        norm_num [apmLine, spanChildLine, apmSpansRule]
        simp)
      (by simp [spanChildLine])
      rfl
      apmSpansRule
      rfl

/-- C4 counterexample: selecting a product with one (deduplicated) allotment
rule whose allotted product resolves to nothing in the loaded catalog
creates no allotment child line at all, against the claim's "one allotment
child line per distinct allotted product is created". -/
theorem unresolved_allotment_creates_no_child :
    parentRules [ghostRule] apmProduct.id = [ghostRule]
    ∧ findAllottedProduct [apmProduct] ghostRule = none
    ∧ lineChildren (updateLine [apmProduct] [ghostRule] demoIds [emptyLine] "L0"
        (some apmProduct) 1) "L0" = [] := by
  refine ⟨rfl, rfl, rfl⟩
